import Mathlib

/-!
Verification of the healthcheck repository's core behaviours:
the caching `ApiFetcher` REST client (`healthcheck/api_fetcher.py`),
the interval-statistics aggregation pattern used by the check suites
(`check_suites/suite_databases.py`, `check_suites/suite_nodes.py`),
and the two result renderers (`result_renderers/basic_renderer.py`,
`result_renderers/json_renderer.py`).

Python values decoded from JSON are modelled by `JVal` (numbers as `ℚ`),
Python dicts by association lists, exceptions by `Except Unit`, and the
network (`common_funcs.http_get`, not part of the sources) by an
environment function `url → user → pass → Option JVal` where `none`
stands for a raised transport error.
-/

namespace Healthcheck

/-- A decoded JSON value (numbers as rationals). -/
inductive JVal where
  | null : JVal
  | boolean : Bool → JVal
  | num : ℚ → JVal
  | str : String → JVal
  | arr : List JVal → JVal
  | obj : List (String × JVal) → JVal

mutual

/-- Boolean equality on decoded JSON values (needed because automatic
derivation does not support the nested occurrences of `List`). -/
def JVal.beq : JVal → JVal → Bool
  | .null, .null => true
  | .boolean x, .boolean y => x == y
  | .num x, .num y => x == y
  | .str x, .str y => x == y
  | .arr xs, .arr ys => JVal.beqArr xs ys
  | .obj xs, .obj ys => JVal.beqObj xs ys
  | _, _ => false

def JVal.beqArr : List JVal → List JVal → Bool
  | [], [] => true
  | x :: xs, y :: ys => JVal.beq x y && JVal.beqArr xs ys
  | _, _ => false

def JVal.beqObj : List (String × JVal) → List (String × JVal) → Bool
  | [], [] => true
  | (k, x) :: xs, (k', y) :: ys => k == k' && JVal.beq x y && JVal.beqObj xs ys
  | _, _ => false

end

theorem JVal.beq_iff (a b : JVal) : JVal.beq a b = true ↔ a = b := by
  refine JVal.beq.induct
    (fun a b => JVal.beq a b = true ↔ a = b)
    (fun xs ys => JVal.beqObj xs ys = true ↔ xs = ys)
    (fun xs ys => JVal.beqArr xs ys = true ↔ xs = ys)
    ?_ ?_ ?_ ?_ ?_ ?_ ?_ ?_ ?_ ?_ ?_ ?_ ?_ a b
  · simp [JVal.beq]
  · intro x y; simp [JVal.beq]
  · intro x y; simp [JVal.beq]
  · intro x y; simp [JVal.beq]
  · intro xs ys ih; simp [JVal.beq, ih]
  · intro xs ys ih; simp [JVal.beq, ih]
  · intro a b h1 h2 h3 h4 h5 h6
    have hne : a ≠ b := by
      rintro rfl
      rcases a with _ | b' | q | s | xs | xs
      · exact h1 rfl rfl
      · exact h2 b' b' rfl rfl
      · exact h3 q q rfl rfl
      · exact h4 s s rfl rfl
      · exact h5 xs xs rfl rfl
      · exact h6 xs xs rfl rfl
    have hfalse : JVal.beq a b = false := by
      rw [JVal.beq.eq_def]
      split
      · exact absurd rfl (h1 rfl)
      · rename_i x y; exact absurd rfl (h2 x y rfl)
      · rename_i x y; exact absurd rfl (h3 x y rfl)
      · rename_i x y; exact absurd rfl (h4 x y rfl)
      · rename_i xs ys; exact absurd rfl (h5 xs ys rfl)
      · rename_i xs ys; exact absurd rfl (h6 xs ys rfl)
      · rfl
    simp [hfalse, hne]
  · simp [JVal.beqArr]
  · intro x xs y ys ih2 ih1
    simp [JVal.beqArr, ih2, ih1]
  · intro xs ys h1 h2
    rcases xs with _ | ⟨x, xs⟩ <;> rcases ys with _ | ⟨y, ys⟩
    · exact absurd rfl (h1 rfl)
    · simp [JVal.beqArr]
    · simp [JVal.beqArr]
    · exact absurd rfl (h2 x xs y ys rfl)
  · simp [JVal.beqObj]
  · intro k x xs k' y ys ih2 ih1
    simp [JVal.beqObj, ih2, ih1]
  · intro xs ys h1 h2
    rcases xs with _ | ⟨x, xs⟩ <;> rcases ys with _ | ⟨y, ys⟩
    · exact absurd rfl (h1 rfl)
    · simp [JVal.beqObj]
    · simp [JVal.beqObj]
    · exact (h2 x.1 x.2 xs y.1 y.2 ys (by simp) (by simp)).elim

instance : DecidableEq JVal := fun a b =>
  decidable_of_iff _ (JVal.beq_iff a b)

instance {ε α : Type} [DecidableEq ε] [DecidableEq α] : DecidableEq (Except ε α)
  | .ok a, .ok b =>
    if h : a = b then .isTrue (by rw [h]) else .isFalse fun hh => h (by injection hh)
  | .ok _, .error _ => .isFalse nofun
  | .error _, .ok _ => .isFalse nofun
  | .error a, .error b =>
    if h : a = b then .isTrue (by rw [h]) else .isFalse fun hh => h (by injection hh)

/-- Python dict lookup `d[k]` on a string-keyed dict, as an option. -/
def dictGet (d : List (String × JVal)) (k : String) : Option JVal :=
  match d with
  | [] => none
  | (k', v) :: rest => if k' = k then some v else dictGet rest k

/-- Python dict assignment `d[k] = v` (replace the binding or append it). -/
def dictSet (d : List (String × JVal)) (k : String) (v : JVal) :
    List (String × JVal) :=
  match d with
  | [] => [(k, v)]
  | (k', v') :: rest =>
    if k' = k then (k, v) :: rest else (k', v') :: dictSet rest k v

/-- Python `k in d` membership test on a dict. -/
def dictContains (d : List (String × JVal)) (k : String) : Bool :=
  (dictGet d k).isSome

/-- Python subscript `v[k]` on a decoded JSON value: a `KeyError` on a
missing key and a `TypeError` on a non-dict both surface as exceptions. -/
def pyIndex (v : JVal) (k : String) : Except Unit JVal :=
  match v with
  | .obj fields =>
    match dictGet fields k with
    | some x => .ok x
    | none => .error ()
  | _ => .error ()

/-- The state of an `ApiFetcher` instance (`api_fetcher.py`, `__init__`):
configured address and credentials, the topic cache, the address→uid
index, and the memoized connectivity flag. -/
structure ApiFetcher where
  addr : String
  username : String
  password : String
  cache : List (String × JVal)
  uids : List (JVal × JVal)
  connected : Option Bool
deriving DecidableEq

/-- A fresh instance as built by `ApiFetcher.__init__` from a parsed
configuration: empty cache, empty uid index, `connected = None`. -/
def ApiFetcher.init (addr username password : String) : ApiFetcher :=
  ⟨addr, username, password, [], [], none⟩

/-- The network environment standing for `common_funcs.http_get`:
given url, username and password it returns the decoded JSON body, or
`none` when the GET raises. -/
def Env : Type := String → String → String → Option JVal

/-- The URL built by `_fetch` on a cache miss: `'https://{}/v1/{}'` when
the configured address already carries a `':'`, otherwise
`'https://{}:9443/v1/{}'`. -/
def fetchUrl (addr topic : String) : String :=
  if addr.toList.contains ':' then
    "https://" ++ addr ++ "/v1/" ++ topic
  else
    "https://" ++ addr ++ ":9443/v1/" ++ topic

/-- `ApiFetcher._fetch`: cache-first topic access.  Returns the result
(ok body or raised exception), the successor state, and the list of
topics for which a network GET was attempted during the call. -/
def ApiFetcher.fetchTopic (net : Env) (f : ApiFetcher) (topic : String) :
    Except Unit JVal × ApiFetcher × List String :=
  if dictContains f.cache topic then
    (match dictGet f.cache topic with
     | some v => .ok v
     | none => .error (), f, [])
  else
    match net (fetchUrl f.addr topic) f.username f.password with
    | some rsp => (.ok rsp, { f with cache := dictSet f.cache topic rsp }, [topic])
    | none => (.error (), f, [topic])

/-- `ApiFetcher.get`: plain topic access. -/
def ApiFetcher.get (net : Env) (f : ApiFetcher) (topic : String) :
    Except Unit JVal × ApiFetcher × List String :=
  f.fetchTopic net topic

/-- `ApiFetcher.get_value`: `self._fetch(_topic)[_key]`. -/
def ApiFetcher.get_value (net : Env) (f : ApiFetcher) (topic key : String) :
    Except Unit JVal × ApiFetcher × List String :=
  match f.fetchTopic net topic with
  | (.ok v, f', log) => (pyIndex v key, f', log)
  | (.error e, f', log) => (.error e, f', log)

/-- Python iteration over a decoded JSON value: a list yields its
elements, a dict its keys, a string its characters; anything else raises
a `TypeError`. -/
def pyIter (v : JVal) : Except Unit (List JVal) :=
  match v with
  | .arr xs => .ok xs
  | .obj fs => .ok (fs.map (fun p => .str p.1))
  | .str s => .ok (s.toList.map (fun c => .str (String.mk [c])))
  | _ => .error ()

/-- The list comprehension `[node[_key] for node in vs]`: evaluated left
to right, raising at the first element where the subscript raises. -/
def pyIndexAll (key : String) : List JVal → Except Unit (List JVal)
  | [] => .ok []
  | x :: xs =>
    match pyIndex x key with
    | .error e => .error e
    | .ok a =>
      match pyIndexAll key xs with
      | .error e => .error e
      | .ok as => .ok (a :: as)

/-- Python `len` on a decoded JSON value. -/
def pyLen (v : JVal) : Except Unit Nat :=
  match v with
  | .arr xs => .ok xs.length
  | .obj fs => .ok fs.length
  | .str s => .ok s.length
  | _ => .error ()

/-- Python `sum` over a list of decoded JSON values (booleans add as
0/1; any other non-numeric element raises a `TypeError`). -/
def pySum : List JVal → Except Unit ℚ
  | [] => .ok 0
  | .num q :: xs =>
    match pySum xs with
    | .error e => .error e
    | .ok s => .ok (q + s)
  | .boolean b :: xs =>
    match pySum xs with
    | .error e => .error e
    | .ok s => .ok ((if b then (1 : ℚ) else 0) + s)
  | _ :: _ => .error ()

/-- The consumed `filter(lambda x: x[_key] == _value, vs)` iterator:
keeps the elements whose `_key` entry equals `_value`, raising at the
first element where the subscript raises. -/
def pyFilterEq (key : String) (value : JVal) : List JVal → Except Unit (List JVal)
  | [] => .ok []
  | x :: xs =>
    match pyIndex x key with
    | .error e => .error e
    | .ok a =>
      match pyFilterEq key value xs with
      | .error e => .error e
      | .ok rest => .ok (if a = value then x :: rest else rest)

/-- The pure part of `get_values` applied to a fetched resource:
`[node[_key] for node in v]`. -/
def valuesOf (key : String) (v : JVal) : Except Unit (List JVal) :=
  match pyIter v with
  | .error e => .error e
  | .ok items => pyIndexAll key items

/-- The pure part of `get_with_value` applied to a fetched resource. -/
def filteredOf (key : String) (value : JVal) (v : JVal) : Except Unit (List JVal) :=
  match pyIter v with
  | .error e => .error e
  | .ok items => pyFilterEq key value items

/-- The pure part of `get_sum_of_values` applied to a fetched resource:
`sum([node[_key] for node in v])`. -/
def sumOf (key : String) (v : JVal) : Except Unit ℚ :=
  match valuesOf key v with
  | .error e => .error e
  | .ok vs => pySum vs

/-- `ApiFetcher.get_values`: `[node[_key] for node in self._fetch(_topic)]`. -/
def ApiFetcher.get_values (net : Env) (f : ApiFetcher) (topic key : String) :
    Except Unit (List JVal) × ApiFetcher × List String :=
  match f.fetchTopic net topic with
  | (.ok v, f', log) => (valuesOf key v, f', log)
  | (.error e, f', log) => (.error e, f', log)

/-- `ApiFetcher.get_number_of_values`: `len(self._fetch(_topic))`. -/
def ApiFetcher.get_number_of_values (net : Env) (f : ApiFetcher) (topic : String) :
    Except Unit Nat × ApiFetcher × List String :=
  match f.fetchTopic net topic with
  | (.ok v, f', log) => (pyLen v, f', log)
  | (.error e, f', log) => (.error e, f', log)

/-- `ApiFetcher.get_sum_of_values`:
`sum([node[_key] for node in self._fetch(_topic)])`. -/
def ApiFetcher.get_sum_of_values (net : Env) (f : ApiFetcher) (topic key : String) :
    Except Unit ℚ × ApiFetcher × List String :=
  match f.fetchTopic net topic with
  | (.ok v, f', log) => (sumOf key v, f', log)
  | (.error e, f', log) => (.error e, f', log)

/-- `ApiFetcher.get_with_value`:
`filter(lambda x: x[_key] == _value, self._fetch(_topic))`, as observed
by a caller consuming the returned iterator. -/
def ApiFetcher.get_with_value (net : Env) (f : ApiFetcher) (topic key : String)
    (value : JVal) : Except Unit (List JVal) × ApiFetcher × List String :=
  match f.fetchTopic net topic with
  | (.ok v, f', log) => (filteredOf key value v, f', log)
  | (.error e, f', log) => (.error e, f', log)

/-- Python dict lookup on the address→uid index (keys are the decoded
`node['addr']` values). -/
def uidGet (d : List (JVal × JVal)) (k : JVal) : Option JVal :=
  match d with
  | [] => none
  | (k', v) :: rest => if k' = k then some v else uidGet rest k

/-- Python dict assignment on the address→uid index. -/
def uidSet (d : List (JVal × JVal)) (k v : JVal) : List (JVal × JVal) :=
  match d with
  | [] => [(k, v)]
  | (k', v') :: rest =>
    if k' = k then (k, v) :: rest else (k', v') :: uidSet rest k v

/-- The dict comprehension
`{node['addr']: node['uid'] for node in nodes}`, built in iteration
order (a later duplicate address overwrites an earlier one), raising at
the first node lacking either key. -/
def buildUids (acc : List (JVal × JVal)) : List JVal → Except Unit (List (JVal × JVal))
  | [] => .ok acc
  | node :: rest =>
    match pyIndex node "addr" with
    | .error e => .error e
    | .ok k =>
      match pyIndex node "uid" with
      | .error e => .error e
      | .ok v => buildUids (uidSet acc k v) rest

/-- `ApiFetcher.get_uid`: on an empty index, fetch `'nodes'` and build
the address→uid dict, then look the address up.  The final `Nat` is an
instrumentation counter: 1 when the call completed the assignment
`self.uids = {...}`, 0 otherwise. -/
def ApiFetcher.get_uid (net : Env) (f : ApiFetcher) (internal_addr : JVal) :
    Except Unit JVal × ApiFetcher × List String × Nat :=
  if f.uids.isEmpty then
    match f.get net "nodes" with
    | (.ok nodes, f1, log) =>
      match pyIter nodes with
      | .ok items =>
        match buildUids [] items with
        | .ok uids' =>
          let f2 := { f1 with uids := uids' }
          ((match uidGet uids' internal_addr with
            | some uid => .ok uid
            | none => .error ()), f2, log, 1)
        | .error e => (.error e, f1, log, 0)
      | .error e => (.error e, f1, log, 0)
    | (.error e, f1, log) => (.error e, f1, log, 0)
  else
    ((match uidGet f.uids internal_addr with
      | some uid => .ok uid
      | none => .error ()), f, [], 0)

/-- A sequence of `get_uid` calls on one instance; returns the final
state and the total number of completed index builds. -/
def runUidCalls (net : Env) (f : ApiFetcher) : List JVal → ApiFetcher × Nat
  | [] => (f, 0)
  | a :: as =>
    let (_, f', _, b) := f.get_uid net a
    let (f'', bs) := runUidCalls net f' as
    (f'', b + bs)

/-- `ApiFetcher.check_connection`: memoized connectivity probe.  Reads
the cluster name once, converts success or any raised failure into the
`connected` flag, and returns immediately on every later call. -/
def ApiFetcher.check_connection (net : Env) (f : ApiFetcher) : ApiFetcher × List String :=
  match f.connected with
  | some _ => (f, [])
  | none =>
    match f.get_value net "cluster" "name" with
    | (.ok _, f1, log) => ({ f1 with connected := some true }, log)
    | (.error _, f1, log) => ({ f1 with connected := some false }, log)

/-- One call to a topic-reading accessor of `ApiFetcher`. -/
inductive ApiOp where
  | get : String → ApiOp
  | get_value : String → String → ApiOp
  | get_values : String → String → ApiOp
  | get_with_value : String → String → JVal → ApiOp
  | get_number_of_values : String → ApiOp
  | get_sum_of_values : String → String → ApiOp
deriving DecidableEq

/-- The topic an accessor call is about. -/
def ApiOp.topic : ApiOp → String
  | .get t => t
  | .get_value t _ => t
  | .get_values t _ => t
  | .get_with_value t _ _ => t
  | .get_number_of_values t => t
  | .get_sum_of_values t _ => t

/-- Run one accessor call, wrapping every result as a `JVal`
(lists as `.arr`, counts and sums as `.num`). -/
def runOp (net : Env) (f : ApiFetcher) : ApiOp → Except Unit JVal × ApiFetcher × List String
  | .get t => f.get net t
  | .get_value t k => f.get_value net t k
  | .get_values t k =>
    match f.get_values net t k with
    | (.ok vs, f', log) => (.ok (.arr vs), f', log)
    | (.error e, f', log) => (.error e, f', log)
  | .get_with_value t k val =>
    match f.get_with_value net t k val with
    | (.ok vs, f', log) => (.ok (.arr vs), f', log)
    | (.error e, f', log) => (.error e, f', log)
  | .get_number_of_values t =>
    match f.get_number_of_values net t with
    | (.ok n, f', log) => (.ok (.num n), f', log)
    | (.error e, f', log) => (.error e, f', log)
  | .get_sum_of_values t k =>
    match f.get_sum_of_values net t k with
    | (.ok q, f', log) => (.ok (.num q), f', log)
    | (.error e, f', log) => (.error e, f', log)

/-- Run a sequence of accessor calls on one instance, collecting all
results and the concatenated network-call log. -/
def runOps (net : Env) (f : ApiFetcher) : List ApiOp → List (Except Unit JVal) × ApiFetcher × List String
  | [] => ([], f, [])
  | op :: ops =>
    let (r, f', log) := runOp net f op
    let (rs, f'', logs) := runOps net f' ops
    (r :: rs, f'', log ++ logs)

/-- The pure projection an accessor applies to an already-fetched
resource, with the result wrapped as a `JVal` exactly as `runOp` wraps
it. -/
def opView : ApiOp → JVal → Except Unit JVal
  | .get _, v => .ok v
  | .get_value _ k, v => pyIndex v k
  | .get_values _ k, v =>
    match valuesOf k v with
    | .ok vs => .ok (.arr vs)
    | .error e => .error e
  | .get_with_value _ k val, v =>
    match filteredOf k val v with
    | .ok vs => .ok (.arr vs)
    | .error e => .error e
  | .get_number_of_values _, v =>
    match pyLen v with
    | .ok n => .ok (.num n)
    | .error e => .error e
  | .get_sum_of_values _ k, v =>
    match sumOf k v with
    | .ok q => .ok (.num q)
    | .error e => .error e

/-! ### Interval statistics (check suites)

The min/avg/max/stddev pattern of `check_databases_usage_001`
(`suite_databases.py`, lines 248–260) and `check_cpu_usage`
(`suite_nodes.py`, lines 204–216): filter the interval records on
`i.get(field)` truthiness, then aggregate `i[field]` over the filtered
records. -/

/-- One interval record: a decoded JSON dict. -/
abbrev Interval : Type := List (String × JVal)

/-- Python truthiness of a decoded JSON value. -/
def pyTruthy : JVal → Bool
  | .null => false
  | .boolean b => b
  | .num q => q ≠ 0
  | .str s => s ≠ ""
  | .arr xs => ¬xs.isEmpty
  | .obj fs => ¬fs.isEmpty

/-- The filter `filter(lambda i: i.get(field), ints)`: `dict.get`
returns `None` (falsy) on a missing key, the value otherwise, and the
record is kept when that value is truthy. -/
def intervalFilter (field : String) (ints : List Interval) : List Interval :=
  ints.filter fun i =>
    match dictGet i field with
    | some v => pyTruthy v
    | none => false

/-- A decoded JSON value used as a Python number (booleans count as
0/1; anything else raises a `TypeError`). -/
def pyNum (v : JVal) : Except Unit ℚ :=
  match v with
  | .num q => .ok q
  | .boolean b => .ok (if b then 1 else 0)
  | _ => .error ()

/-- The comprehension `[i[field] for i in ints]` as numbers. -/
def intervalVals (field : String) : List Interval → Except Unit (List ℚ)
  | [] => .ok []
  | i :: rest =>
    match dictGet i field with
    | none => .error ()
    | some w =>
      match pyNum w with
      | .error e => .error e
      | .ok v =>
        match intervalVals field rest with
        | .error e => .error e
        | .ok vs => .ok (v :: vs)

/-- Python `min` over a list of numbers: `ValueError` on an empty list. -/
def pyMinQ (l : List ℚ) : Except Unit ℚ :=
  match l.min? with
  | some m => .ok m
  | none => .error ()

/-- Python `max` over a list of numbers: `ValueError` on an empty list. -/
def pyMaxQ (l : List ℚ) : Except Unit ℚ :=
  match l.max? with
  | some m => .ok m
  | none => .error ()

/-- The statistical aggregation of the check suites, translated from
`check_databases_usage_001`: minimum first (so an empty filtered sample
raises there), then average, maximum, and the quadratic sum
`functools.reduce(lambda x, y: x + pow(y[field] - average, 2), ..., 0)`.
The fourth component is the radicand `q_sum / n` to which the source
applies `math.sqrt`. -/
def statsAggregate (field : String) (ints : List Interval) :
    Except Unit (ℚ × ℚ × ℚ × ℚ) :=
  match intervalVals field (intervalFilter field ints) with
  | .error e => .error e
  | .ok vals0 =>
    match pyMinQ vals0 with
    | .error e => .error e
    | .ok minimum =>
      match intervalVals field (intervalFilter field ints) with
      | .error e => .error e
      | .ok vals1 =>
        let average := vals1.sum / ((intervalFilter field ints).length : ℚ)
        match intervalVals field (intervalFilter field ints) with
        | .error e => .error e
        | .ok vals2 =>
          match pyMaxQ vals2 with
          | .error e => .error e
          | .ok maximum =>
            match intervalVals field (intervalFilter field ints) with
            | .error e => .error e
            | .ok vals3 =>
              let q_sum := vals3.foldl (fun x y => x + (y - average) ^ 2) 0
              .ok (minimum, average, maximum,
                   q_sum / ((intervalFilter field ints).length : ℚ))

/-- Modelled from the spec: the arithmetic mean of a sample
(`StatsAggregator`, §4.3). -/
def specMean (xs : List ℚ) : ℚ := xs.sum / (xs.length : ℚ)

/-- Modelled from the spec: the population variance
`Σ(x−mean)² / n` of a sample — dividing by the count `n`, not `n−1`
(`StatsAggregator`, §4.3); the spec's standard deviation is its square
root. -/
def specVarPop (xs : List ℚ) : ℚ :=
  ((xs.map fun x => (x - specMean xs) ^ 2).sum) / (xs.length : ℚ)

/-- Modelled from the spec: the minimum of a sample. -/
def specMin (xs : List ℚ) : ℚ := xs.min?.getD 0

/-- Modelled from the spec: the maximum of a sample. -/
def specMax (xs : List ℚ) : ℚ := xs.max?.getD 0

/-! ### Result renderers -/

/-- The value a check stores in slot 0 of its outcome tuple, as
discriminated by the renderers (`is True`, `is False`, `is None`,
`== ''`, `is Exception`, or some other Python value such as an int). -/
inductive Marker where
  | pyBool : Bool → Marker
  | pyNone : Marker
  | pyStr : String → Marker
  | pyExc : Marker
  | pyInt : Int → Marker
deriving DecidableEq

/-- A check outcome as handed to `render_result`: the status marker,
the `info` mapping (slot 1), and the optional description override
(slot 2, present when `len(_result) == 3`). -/
structure CheckResult where
  status : Marker
  info : List (String × String)
  doc : Option String
deriving DecidableEq

/-- `doc.split('\n')[0]`: the first line of a documentation string. -/
def firstLine (s : String) : String :=
  String.mk (s.toList.takeWhile fun c => c ≠ '\n')

/-- The leftmost match of `re.findall(r'Remedy: (.*)', doc)` (the
pattern has no anchors, so it matches at any position; `.` stops at a
newline): the text following the first occurrence of `'Remedy: '`, up
to the end of its line.  `none` exactly when `findall` returns `[]`. -/
def firstRemedyAux : List Char → Option String
  | [] => none
  | c :: rest =>
    if List.take 8 (c :: rest) = "Remedy: ".toList then
      some (String.mk ((List.drop 8 (c :: rest)).takeWhile fun ch => ch ≠ '\n'))
    else
      firstRemedyAux rest

/-- First captured group of `re.findall(r'Remedy: (.*)', doc)`. -/
def firstRemedy (doc : String) : Option String :=
  firstRemedyAux doc.toList

/-- ANSI colorization, from `printer_funcs.Color`. -/
def Color.green (t : String) : String := "\x1b[0;32m" ++ t ++ "\x1b[0m"

/-- ANSI colorization, from `printer_funcs.Color`. -/
def Color.red (t : String) : String := "\x1b[0;31m" ++ t ++ "\x1b[0m"

/-- ANSI colorization, from `printer_funcs.Color`. -/
def Color.yellow (t : String) : String := "\x1b[0;33m" ++ t ++ "\x1b[0m"

/-- ANSI colorization, from `printer_funcs.Color`. -/
def Color.magenta (t : String) : String := "\x1b[0;35m" ++ t ++ "\x1b[0m"

/-- ANSI colorization, from `printer_funcs.Color`. -/
def Color.cyan (t : String) : String := "\x1b[0;36m" ++ t ++ "\x1b[0m"

/-- `basic_renderer.render_result`: the `to_print` segments of the line
printed for one outcome (`none` when the status marker is unrecognized
and `NotImplementedError` is raised before anything is printed).  The
segments are, in order: status glyph, first-line description, status
label, joined info, and — only for a Failed outcome whose scanned full
documentation contains a `'Remedy: '` match — the appended remedy
segment. -/
def basic_render_result (res : CheckResult) (funcDoc : String) : Option (List String) :=
  let doc0 := firstLine (res.doc.getD funcDoc)
  let branch : Option (List String × Option String) :=
    if res.status = .pyStr "" then
      some (["[ ]", doc0, "[SKIPPED]"], none)
    else if res.status = .pyBool true then
      some ([Color.green "[+]", doc0, Color.green "[SUCCEEDED]"], none)
    else if res.status = .pyBool false then
      some ([Color.red "[-]", doc0, Color.red "[FAILED]"],
            firstRemedy (res.doc.getD funcDoc))
    else if res.status = .pyNone then
      some ([Color.yellow "[~]", doc0, Color.yellow "[NO RESULT]"], none)
    else if res.status = .pyExc then
      some ([Color.magenta "[*]", doc0, Color.magenta "[ERROR]"], none)
    else
      none
  match branch with
  | none => none
  | some (to_print0, remedy) =>
    let infoStr := String.intercalate ", " (res.info.map fun kv => kv.1 ++ ": " ++ kv.2)
    match remedy with
    | some r => some (to_print0 ++ [infoStr] ++ [Color.cyan "Remedy:" ++ " " ++ r])
    | none => some (to_print0 ++ [infoStr])

/-- The JSON object printed by `json_renderer.render_result` for one
outcome. -/
structure JsonOut where
  desc : String
  status : String
  remedy : Option String
  info : List (String × String)
deriving DecidableEq

/-- `json_renderer.render_result` (`none` when the status marker is
unrecognized and `NotImplementedError` is raised before anything is
printed). -/
def json_render_result (res : CheckResult) (funcDoc : String) : Option JsonOut :=
  let desc := firstLine (res.doc.getD funcDoc)
  if res.status = .pyStr "" then
    some ⟨desc, "SKIPPED", none, res.info⟩
  else if res.status = .pyBool true then
    some ⟨desc, "SUCCEEDED", none, res.info⟩
  else if res.status = .pyBool false then
    some ⟨desc, "FAILED", firstRemedy (res.doc.getD funcDoc), res.info⟩
  else if res.status = .pyNone then
    some ⟨desc, "NO RESULT", none, res.info⟩
  else if res.status = .pyExc then
    some ⟨desc, "ERROR", none, res.info⟩
  else
    none

/-- The closed five-value status enumeration of the spec (§3). -/
inductive Status where
  | succeeded | failed | noResult | skipped | errored
deriving DecidableEq

/-- Modelled from the spec: the status normalization of §4.4 — boolean
`true` → Succeeded, `false` → Failed, `None` → NoResult, the empty
marker → Skipped, the error marker → Errored, nothing else accepted. -/
def specStatusOf : Marker → Option Status
  | .pyBool true => some .succeeded
  | .pyBool false => some .failed
  | .pyNone => some .noResult
  | .pyStr s => if s = "" then some .skipped else none
  | .pyExc => some .errored
  | .pyInt _ => none

/-- The status label the basic renderer prints for each normalized
status. -/
def basicLabel : Status → String
  | .succeeded => Color.green "[SUCCEEDED]"
  | .failed => Color.red "[FAILED]"
  | .noResult => Color.yellow "[NO RESULT]"
  | .skipped => "[SKIPPED]"
  | .errored => Color.magenta "[ERROR]"

/-- The status string the JSON renderer emits for each normalized
status. -/
def jsonLabel : Status → String
  | .succeeded => "SUCCEEDED"
  | .failed => "FAILED"
  | .noResult => "NO RESULT"
  | .skipped => "SKIPPED"
  | .errored => "ERROR"

/-! ### Concrete fixtures used by witnesses and counterexamples -/

/-- Interval records whose `total_req` values are 10, 20, 30. -/
def sample3 : List Interval :=
  [[("total_req", .num 10)], [("total_req", .num 20)], [("total_req", .num 30)]]

/-- A fresh fetcher on host `host` (no explicit port) with credentials
`u`/`p`. -/
def fHost : ApiFetcher := ApiFetcher.init "host" "u" "p"

/-- A one-node `nodes` resource. -/
def nodesVal : JVal := .arr [.obj [("addr", .str "10.0.0.1"), ("uid", .num 1)]]

/-- An environment serving only the `nodes` topic of `fHost`. -/
def netNodes : Env := fun url user pass =>
  if url = "https://host:9443/v1/nodes" ∧ user = "u" ∧ pass = "p" then
    some nodesVal
  else
    none

/-- An environment whose `nodes` topic decodes to an empty list. -/
def netEmptyNodes : Env := fun url _ _ =>
  if url = "https://host:9443/v1/nodes" then some (.arr []) else none

/-- An environment in which every GET raises. -/
def netDown : Env := fun _ _ _ => none

/-- An environment serving only the `cluster` topic of `fHost`. -/
def netCluster : Env := fun url _ _ =>
  if url = "https://host:9443/v1/cluster" then
    some (.obj [("name", .str "c1")])
  else
    none

/-- A fetcher whose uid index is already built and non-empty. -/
def fUids : ApiFetcher := { fHost with uids := [(.str "10.0.0.1", .num 1)] }

/-- A Failed outcome whose documentation override carries a remedy
line. -/
def resRemedy : CheckResult :=
  ⟨.pyBool false, [], some "DU-001: Check.\n\nRemedy: move shards\n"⟩

end Healthcheck

namespace Healthcheck

/-! ## Claim theorems -/

/-! ### C2/C3/C4: the interval-statistics aggregation -/

theorem intervalVals_length (field : String) :
    ∀ (l : List Interval) (vs : List ℚ),
      intervalVals field l = .ok vs → vs.length = l.length := by
  intro l
  induction l with
  | nil =>
    intro vs h
    simp [intervalVals] at h
    simp [← h]
  | cons i rest ih =>
    intro vs h
    simp only [intervalVals] at h
    split at h
    · simp at h
    · split at h
      · simp at h
      · split at h
        · simp at h
        · rename_i hr
          simp only [Except.ok.injEq] at h
          subst h
          simp [ih _ hr]

theorem foldl_add_comp (g : ℚ → ℚ) :
    ∀ (l : List ℚ) (a : ℚ),
      l.foldl (fun x y => x + g y) a = a + (l.map g).sum := by
  intro l
  induction l with
  | nil => intro a; simp
  | cons x xs ih => intro a; simp [ih, add_assoc]

/-- C2: when no interval record passes the field filter, the
aggregation raises (Python: `min` of an empty sequence raises
`ValueError`); it never returns a numeric tuple. -/
theorem statsAggregate_empty_filter_errors :
    ∀ (field : String) (ints : List Interval),
      intervalFilter field ints = [] → statsAggregate field ints = .error () := by
  intro field ints h
  unfold statsAggregate
  rw [h]
  simp [intervalVals, pyMinQ, List.min?]

theorem statsAggregate_empty_filter_errors_witness :
    intervalFilter "cpu_idle" [[("other", .num 5)], [("cpu_idle", .num 0)]] = [] ∧
    statsAggregate "cpu_idle" [[("other", .num 5)], [("cpu_idle", .num 0)]] = .error () :=
  ⟨by decide, statsAggregate_empty_filter_errors _ _ (by decide)⟩

/-- C3 (counterexample): a record whose field is genuinely present with
the number 0 is nevertheless excluded by the filter (the source tests
`i.get(field)` truthiness, not presence), so the claimed
presence-filtering is false on the code. -/
theorem intervalFilter_zero_value_excluded :
    dictGet [("total_req", (.num 0 : JVal))] "total_req" = some (.num 0) ∧
    intervalFilter "total_req" [[("total_req", .num 0)]] = [] ∧
    statsAggregate "total_req" [[("total_req", .num 0)]] = .error () :=
  ⟨by decide, by decide, by decide⟩

/-- C3 (amended): the filter keeps exactly the records whose field is
present with a Python-truthy value; records where the field is absent
or present with a falsy value (such as the number 0) are excluded. -/
theorem intervalFilter_truthiness :
    ∀ (field : String) (ints : List Interval) (i : Interval),
      i ∈ intervalFilter field ints ↔
        i ∈ ints ∧ ∃ v, dictGet i field = some v ∧ pyTruthy v = true := by
  intro field ints i
  simp only [intervalFilter, List.mem_filter]
  cases h : dictGet i field with
  | none => simp [h]
  | some v => simp [h]

/-- C4: over a non-empty filtered sample the aggregation returns the
sample minimum, the arithmetic mean, the sample maximum, and the
population variance `Σ(x−mean)²/n` (divided by the count `n`, not
`n−1`) to which the source applies `math.sqrt`; in particular for the
sample 10, 20, 30 it yields min 10, mean 20, max 30 and a standard
deviation `√(200/3)` strictly between 8.16 and 8.17. -/
theorem statsAggregate_population_formula :
    (∀ (field : String) (ints : List Interval) (vals : List ℚ),
        intervalVals field (intervalFilter field ints) = .ok vals → vals ≠ [] →
        statsAggregate field ints =
          .ok (specMin vals, specMean vals, specMax vals, specVarPop vals)) ∧
    statsAggregate "total_req" sample3 = .ok (10, 20, 30, 200 / 3) ∧
    (8.16 : ℝ) < Real.sqrt (200 / 3) ∧ Real.sqrt ((200 : ℝ) / 3) < 8.17 := by
  have key : ∀ (field : String) (ints : List Interval) (vals : List ℚ),
      intervalVals field (intervalFilter field ints) = .ok vals → vals ≠ [] →
      statsAggregate field ints =
        .ok (specMin vals, specMean vals, specMax vals, specVarPop vals) := by
    intro field ints vals hvals hne
    have hlen := intervalVals_length field _ _ hvals
    rcases vals with _ | ⟨x, xs⟩
    · exact absurd rfl hne
    have hcast : ((intervalFilter field ints).length : ℚ) = ((x :: xs).length : ℚ) := by
      rw [hlen]
    unfold statsAggregate
    rw [hvals, hcast]
    simp only [pyMinQ, pyMaxQ, List.min?, List.max?]
    refine congrArg Except.ok ?_
    refine Prod.ext rfl (Prod.ext ?_ (Prod.ext rfl ?_))
    · rfl
    · show (x :: xs).foldl
        (fun a y => a + (y - (x :: xs).sum / ((x :: xs).length : ℚ)) ^ 2) 0 /
          ((x :: xs).length : ℚ) = specVarPop (x :: xs)
      rw [foldl_add_comp (fun y => (y - (x :: xs).sum / ((x :: xs).length : ℚ)) ^ 2)]
      simp [specVarPop, specMean]
  refine ⟨key, ?_, ?_, ?_⟩
  · have h := key "total_req" sample3 [10, 20, 30] (by decide) (by decide)
    rw [h]
    norm_num [specMin, specMax, specMean, specVarPop, List.min?, List.max?, min_def, max_def]
  · have h816 : (0 : ℝ) ≤ 8.16 := by norm_num
    rw [Real.lt_sqrt h816]
    norm_num
  · have h817 : (0 : ℝ) < 8.17 := by norm_num
    rw [Real.sqrt_lt' h817]
    norm_num

theorem statsAggregate_population_formula_witness :
    intervalVals "total_req" (intervalFilter "total_req" sample3) = .ok [10, 20, 30] ∧
    ([10, 20, 30] : List ℚ) ≠ [] ∧
    statsAggregate "total_req" sample3 =
      .ok (specMin [10, 20, 30], specMean [10, 20, 30],
           specMax [10, 20, 30], specVarPop [10, 20, 30]) :=
  ⟨by decide, by decide,
    statsAggregate_population_formula.1 "total_req" sample3 [10, 20, 30]
      (by decide) (by decide)⟩

/-! ### C1/C8: caching in `_fetch` and the accessors -/

theorem dictGet_dictSet_self :
    ∀ (d : List (String × JVal)) (k : String) (v : JVal),
      dictGet (dictSet d k v) k = some v := by
  intro d k v
  induction d with
  | nil => simp [dictSet, dictGet]
  | cons p rest ih =>
    by_cases h : p.1 = k
    · simp [dictSet, dictGet, h]
    · simp [dictSet, dictGet, h, ih]

theorem fetch_hit (net : Env) (f : ApiFetcher) (t : String) (v : JVal)
    (h : dictGet f.cache t = some v) :
    f.fetchTopic net t = (.ok v, f, []) := by
  unfold ApiFetcher.fetchTopic
  simp [dictContains, h]

theorem fetch_miss_ok (net : Env) (f : ApiFetcher) (t : String) (v : JVal)
    (h : dictGet f.cache t = none)
    (hnet : net (fetchUrl f.addr t) f.username f.password = some v) :
    f.fetchTopic net t = (.ok v, { f with cache := dictSet f.cache t v }, [t]) := by
  unfold ApiFetcher.fetchTopic
  simp [dictContains, h, hnet]

theorem runOp_cached (net : Env) (f : ApiFetcher) (op : ApiOp) (v : JVal)
    (h : dictGet f.cache op.topic = some v) :
    runOp net f op = (opView op v, f, []) := by
  cases op with
  | get t =>
    have hf := fetch_hit net f t v h
    simp [runOp, ApiFetcher.get, hf, opView]
  | get_value t k =>
    have hf := fetch_hit net f t v h
    simp [runOp, ApiFetcher.get_value, hf, opView]
  | get_values t k =>
    have hf := fetch_hit net f t v h
    simp only [runOp, ApiFetcher.get_values, hf, opView]
    cases valuesOf k v <;> rfl
  | get_with_value t k val =>
    have hf := fetch_hit net f t v h
    simp only [runOp, ApiFetcher.get_with_value, hf, opView]
    cases filteredOf k val v <;> rfl
  | get_number_of_values t =>
    have hf := fetch_hit net f t v h
    simp only [runOp, ApiFetcher.get_number_of_values, hf, opView]
    cases pyLen v <;> rfl
  | get_sum_of_values t k =>
    have hf := fetch_hit net f t v h
    simp only [runOp, ApiFetcher.get_sum_of_values, hf, opView]
    cases sumOf k v <;> rfl

theorem runOp_miss_ok (net : Env) (f : ApiFetcher) (op : ApiOp) (v : JVal)
    (h : dictGet f.cache op.topic = none)
    (hnet : net (fetchUrl f.addr op.topic) f.username f.password = some v) :
    runOp net f op =
      (opView op v, { f with cache := dictSet f.cache op.topic v }, [op.topic]) := by
  cases op with
  | get t =>
    have hf := fetch_miss_ok net f t v h hnet
    simp [runOp, ApiOp.topic, ApiFetcher.get, hf, opView]
  | get_value t k =>
    have hf := fetch_miss_ok net f t v h hnet
    simp [runOp, ApiOp.topic, ApiFetcher.get_value, hf, opView]
  | get_values t k =>
    have hf := fetch_miss_ok net f t v h hnet
    simp only [runOp, ApiOp.topic, ApiFetcher.get_values, hf, opView]
    cases valuesOf k v <;> rfl
  | get_with_value t k val =>
    have hf := fetch_miss_ok net f t v h hnet
    simp only [runOp, ApiOp.topic, ApiFetcher.get_with_value, hf, opView]
    cases filteredOf k val v <;> rfl
  | get_number_of_values t =>
    have hf := fetch_miss_ok net f t v h hnet
    simp only [runOp, ApiOp.topic, ApiFetcher.get_number_of_values, hf, opView]
    cases pyLen v <;> rfl
  | get_sum_of_values t k =>
    have hf := fetch_miss_ok net f t v h hnet
    simp only [runOp, ApiOp.topic, ApiFetcher.get_sum_of_values, hf, opView]
    cases sumOf k v <;> rfl

theorem runOps_cached (net : Env) :
    ∀ (ops : List ApiOp) (f : ApiFetcher) (t : String) (v : JVal),
      (∀ op ∈ ops, op.topic = t) → dictGet f.cache t = some v →
      runOps net f ops = (ops.map fun op => opView op v, f, []) := by
  intro ops
  induction ops with
  | nil => intro f t v _ _; rfl
  | cons op rest ih =>
    intro f t v hall hc
    have hop : op.topic = t := hall op (by simp)
    have h1 : runOp net f op = (opView op v, f, []) :=
      runOp_cached net f op v (by rw [hop]; exact hc)
    have h2 := ih f t v (fun o hm => hall o (by simp [hm])) hc
    simp [runOps, h1, h2]

/-- C1: with the resource available from the network, any sequence of
accessor calls on one uncached topic performs exactly one GET (on the
first call), stores the decoded body in the cache, and serves every
call — the first included — as the corresponding pure view of that one
stored resource, with no further network call. -/
theorem topic_fetched_at_most_once :
    ∀ (net : Env) (f : ApiFetcher) (t : String) (v : JVal) (ops : List ApiOp),
      dictGet f.cache t = none →
      net (fetchUrl f.addr t) f.username f.password = some v →
      (∀ op ∈ ops, op.topic = t) →
      runOps net f ops =
        (ops.map fun op => opView op v,
         if ops.isEmpty then f else { f with cache := dictSet f.cache t v },
         if ops.isEmpty then [] else [t]) := by
  intro net f t v ops hmiss hnet hall
  cases ops with
  | nil => rfl
  | cons op rest =>
    have hop : op.topic = t := hall op (by simp)
    have h1 : runOp net f op =
        (opView op v, { f with cache := dictSet f.cache t v }, [t]) := by
      have := runOp_miss_ok net f op v (by rw [hop]; exact hmiss)
        (by rw [hop]; exact hnet)
      rw [hop] at this
      exact this
    have hc : dictGet (dictSet f.cache t v) t = some v := dictGet_dictSet_self f.cache t v
    have h2 := runOps_cached net rest { f with cache := dictSet f.cache t v } t v
      (fun o hm => hall o (by simp [hm])) hc
    simp [runOps, h1, h2]

theorem topic_fetched_at_most_once_witness :
    dictGet fHost.cache "nodes" = none ∧
    netNodes (fetchUrl fHost.addr "nodes") fHost.username fHost.password = some nodesVal ∧
    runOps netNodes fHost [.get "nodes", .get "nodes", .get_values "nodes" "uid"] =
      ([.ok nodesVal, .ok nodesVal, .ok (.arr [.num 1])],
       { fHost with cache := [("nodes", nodesVal)] }, ["nodes"]) :=
  ⟨by decide, by decide, by
    have h := topic_fetched_at_most_once netNodes fHost "nodes" nodesVal
      [.get "nodes", .get "nodes", .get_values "nodes" "uid"]
      (by decide) (by decide) (by decide)
    exact h.trans (by decide)⟩

/-- C8: on a cache miss, `_fetch` issues the GET at
`https://{addr}/v1/{topic}` when the configured address contains a
`':'` (an explicit port) and at `https://{addr}:9443/v1/{topic}`
otherwise, authenticating with the configured username and password,
and stores whatever body the GET returns in the cache unconditionally. -/
theorem fetch_url_and_store :
    ∀ (net : Env) (f : ApiFetcher) (t : String),
      dictGet f.cache t = none →
      (∀ v, net (fetchUrl f.addr t) f.username f.password = some v →
        f.fetchTopic net t = (.ok v, { f with cache := dictSet f.cache t v }, [t]) ∧
        dictGet (f.fetchTopic net t).2.1.cache t = some v) ∧
      (f.addr.toList.contains ':' = true →
        fetchUrl f.addr t = "https://" ++ f.addr ++ "/v1/" ++ t) ∧
      (f.addr.toList.contains ':' = false →
        fetchUrl f.addr t = "https://" ++ f.addr ++ ":9443/v1/" ++ t) := by
  intro net f t hmiss
  refine ⟨?_, ?_, ?_⟩
  · intro v hnet
    have h := fetch_miss_ok net f t v hmiss hnet
    exact ⟨h, by rw [h]; exact dictGet_dictSet_self f.cache t v⟩
  · intro h; unfold fetchUrl; rw [if_pos h]
  · intro h; unfold fetchUrl; rw [if_neg (by simpa using h)]

theorem fetch_url_and_store_witness :
    dictGet fHost.cache "nodes" = none ∧
    fetchUrl fHost.addr "nodes" = "https://host:9443/v1/nodes" ∧
    fHost.fetchTopic netNodes "nodes" =
      (.ok nodesVal, { fHost with cache := [("nodes", nodesVal)] }, ["nodes"]) := by
  have h := fetch_url_and_store netNodes fHost "nodes" (by decide)
  exact ⟨by decide, by decide, ((h.1 nodesVal (by decide)).1).trans (by decide)⟩

/-! ### C7: the uid index of `get_uid` -/

theorem get_uid_build_le (net : Env) (f : ApiFetcher) (a : JVal) :
    (f.get_uid net a).2.2.2 ≤ 1 := by
  unfold ApiFetcher.get_uid
  by_cases h : f.uids.isEmpty
  · rcases hg : f.get net "nodes" with ⟨r, f1, log⟩
    simp only [h, if_true, hg]
    rcases r with e | nodes
    · simp
    · rcases hi : pyIter nodes with e | items
      · simp [hi]
      · rcases hb : buildUids [] items with e | uids'
        · simp [hi, hb]
        · simp [hi, hb]
  · simp [h]

theorem get_uid_skip (net : Env) (f : ApiFetcher) (a : JVal) (h : f.uids ≠ []) :
    f.get_uid net a =
      ((match uidGet f.uids a with
        | some uid => .ok uid
        | none => .error ()), f, [], 0) := by
  have h64 : f.uids.isEmpty = false := by
    rcases hu : f.uids with _ | ⟨p, rest⟩
    · exact absurd hu h
    · simp
  unfold ApiFetcher.get_uid
  simp [h64]

theorem runUidCalls_no_rebuild (net : Env) :
    ∀ (addrs : List JVal) (f : ApiFetcher), f.uids ≠ [] →
      runUidCalls net f addrs = (f, 0) := by
  intro addrs
  induction addrs with
  | nil => intro f _; rfl
  | cons a as ih =>
    intro f h
    simp [runUidCalls, get_uid_skip net f a h, ih f h]

/-- C7 (counterexample): when the `nodes` topic decodes to an empty
list, the first `get_uid` call builds an empty index, so the guard
`if not self.uids` fires again and the second call rebuilds: two calls
complete the index-building assignment twice, refuting "built at most
once per instance, regardless of call count". -/
theorem get_uid_rebuild_counterexample :
    (runUidCalls netEmptyNodes fHost [.str "x", .str "x"]).2 = 2 := by decide

/-- C7 (amended): each `get_uid` call completes the index build at most
once, and once the instance's index is non-empty no call ever rebuilds
it — every later call reuses the index and performs no network fetch;
only an instance whose built index is empty rebuilds on subsequent
calls. -/
theorem get_uid_index_built_at_most_once :
    ∀ (net : Env) (f : ApiFetcher) (a : JVal) (addrs : List JVal),
      (f.get_uid net a).2.2.2 ≤ 1 ∧
      (f.uids ≠ [] →
        f.get_uid net a =
          ((match uidGet f.uids a with
            | some uid => .ok uid
            | none => .error ()), f, [], 0) ∧
        runUidCalls net f addrs = (f, 0)) :=
  fun net f a addrs =>
    ⟨get_uid_build_le net f a,
     fun h => ⟨get_uid_skip net f a h, runUidCalls_no_rebuild net addrs f h⟩⟩

theorem get_uid_index_built_at_most_once_witness :
    fUids.uids ≠ [] ∧
    (fUids.get_uid netDown (.str "10.0.0.1")).2.2.2 ≤ 1 ∧
    fUids.get_uid netDown (.str "10.0.0.1") = (.ok (.num 1), fUids, [], 0) ∧
    runUidCalls netDown fUids [.str "a", .str "b"] = (fUids, 0) := by
  have h := get_uid_index_built_at_most_once netDown fUids (.str "10.0.0.1") [.str "a", .str "b"]
  refine ⟨by decide, h.1, ?_, (h.2 (by decide)).2⟩
  exact ((h.2 (by decide)).1).trans (by decide)

/-! ### C9: `check_connection` -/

theorem fetch_log_le (net : Env) (f : ApiFetcher) (t : String) :
    (f.fetchTopic net t).2.2.length ≤ 1 := by
  unfold ApiFetcher.fetchTopic
  split
  · simp
  · split <;> simp

theorem get_value_log_le (net : Env) (f : ApiFetcher) (t k : String) :
    (f.get_value net t k).2.2.length ≤ 1 := by
  have hlog := fetch_log_le net f t
  rcases hg : f.fetchTopic net t with ⟨r, f1, log⟩
  rw [hg] at hlog
  unfold ApiFetcher.get_value
  rw [hg]
  rcases r with e | v <;> simpa using hlog

/-- C9: `check_connection` never propagates an error: it always
returns a state whose flag is set, performing at most one low-cost read
(the cluster name); on a fresh instance the flag records exactly
whether that read succeeded, a second call on the result is a no-op
with no network read, and a call on an instance whose flag is already
set returns the state unchanged with no network read. -/
theorem check_connection_contract :
    ∀ (net : Env) (f : ApiFetcher),
      ((f.check_connection net).1.connected).isSome = true ∧
      (f.check_connection net).2.length ≤ 1 ∧
      ApiFetcher.check_connection net (f.check_connection net).1 =
        ((f.check_connection net).1, []) ∧
      (f.connected = none →
        (f.check_connection net).1.connected =
          some (match (f.get_value net "cluster" "name").1 with
                | .ok _ => true
                | .error _ => false)) ∧
      (∀ b, f.connected = some b → f.check_connection net = (f, [])) := by
  intro net f
  rcases hc : f.connected with _ | b
  · have hlog := get_value_log_le net f "cluster" "name"
    rcases hg : f.get_value net "cluster" "name" with ⟨r, f1, log⟩
    rw [hg] at hlog
    rcases r with e | v <;>
      simp [ApiFetcher.check_connection, hc, hg] <;>
      simpa using hlog
  · simp [ApiFetcher.check_connection, hc]

theorem check_connection_contract_witness :
    fHost.connected = none ∧
    (fHost.check_connection netDown).1.connected = some false ∧
    ApiFetcher.check_connection netDown (fHost.check_connection netDown).1 =
      ((fHost.check_connection netDown).1, []) := by
  have h := check_connection_contract netDown fHost
  refine ⟨rfl, ?_, h.2.2.1⟩
  exact (h.2.2.2.1 rfl).trans (by decide)

/-! ### C5/C6/C10: the result renderers -/

/-- C6: the two renderers classify every status marker identically,
following the spec's normalization `specStatusOf`: each accepts a
marker exactly when the normalization does, the basic renderer's third
segment is the normalized status under its labelling, the JSON
renderer's `status` field is the normalized status under its labelling,
and markers outside the five-value enumeration are rejected by both. -/
theorem renderers_classify_identically :
    ∀ (res : CheckResult) (funcDoc : String),
      ((basic_render_result res funcDoc).isSome ↔ (specStatusOf res.status).isSome) ∧
      ((json_render_result res funcDoc).isSome ↔ (specStatusOf res.status).isSome) ∧
      (basic_render_result res funcDoc).bind (fun l => l[2]?) =
        (specStatusOf res.status).map basicLabel ∧
      (json_render_result res funcDoc).map JsonOut.status =
        (specStatusOf res.status).map jsonLabel := by
  intro res funcDoc
  rcases res with ⟨m, info, doc⟩
  rcases m with b | _ | s | _ | n
  · cases b
    · rcases hr : firstRemedy (doc.getD funcDoc) with _ | r <;>
        simp [basic_render_result, json_render_result, specStatusOf,
              basicLabel, jsonLabel, hr]
    · simp [basic_render_result, json_render_result, specStatusOf,
            basicLabel, jsonLabel]
  · simp [basic_render_result, json_render_result, specStatusOf,
          basicLabel, jsonLabel]
  · by_cases hs : s = "" <;>
      simp [basic_render_result, json_render_result, specStatusOf,
            basicLabel, jsonLabel, hs]
  · simp [basic_render_result, json_render_result, specStatusOf,
          basicLabel, jsonLabel]
  · simp [basic_render_result, json_render_result, specStatusOf,
          basicLabel, jsonLabel]

/-- C10: for every status marker outside the five recognized values,
both renderers raise `NotImplementedError` before emitting anything:
the rendered output is `none` in both implementations. -/
theorem renderers_reject_unknown_marker :
    ∀ (res : CheckResult) (funcDoc : String),
      res.status ≠ .pyBool true → res.status ≠ .pyBool false →
      res.status ≠ .pyNone → res.status ≠ .pyStr "" → res.status ≠ .pyExc →
      basic_render_result res funcDoc = none ∧
      json_render_result res funcDoc = none := by
  intro res funcDoc h1 h2 h3 h4 h5
  constructor <;>
    simp [basic_render_result, json_render_result, h1, h2, h3, h4, h5]

theorem renderers_reject_unknown_marker_witness :
    ((⟨.pyInt 7, [], none⟩ : CheckResult).status ≠ .pyBool true) ∧
    ((⟨.pyInt 7, [], none⟩ : CheckResult).status ≠ .pyBool false) ∧
    ((⟨.pyInt 7, [], none⟩ : CheckResult).status ≠ .pyNone) ∧
    ((⟨.pyInt 7, [], none⟩ : CheckResult).status ≠ .pyStr "") ∧
    ((⟨.pyInt 7, [], none⟩ : CheckResult).status ≠ .pyExc) ∧
    basic_render_result ⟨.pyInt 7, [], none⟩ "d" = none ∧
    json_render_result ⟨.pyInt 7, [], none⟩ "d" = none := by
  have h := renderers_reject_unknown_marker ⟨.pyInt 7, [], none⟩ "d"
    (by decide) (by decide) (by decide) (by decide) (by decide)
  exact ⟨by decide, by decide, by decide, by decide, by decide, h.1, h.2⟩

/-- C5: in both renderers a remedy is attached to a rendered record
exactly when the outcome's marker is boolean `false` (Failed) and the
scanned full documentation contains a `'Remedy: '` match; the attached
value is the text following the first `'Remedy: '` up to the end of its
line, and for every other status the remedy slot stays unset. -/
theorem remedy_attached_iff :
    ∀ (res : CheckResult) (funcDoc : String),
      (∀ out, json_render_result res funcDoc = some out →
        (out.remedy ≠ none ↔
          res.status = .pyBool false ∧ firstRemedy (res.doc.getD funcDoc) ≠ none) ∧
        (res.status = .pyBool false →
          out.remedy = firstRemedy (res.doc.getD funcDoc))) ∧
      (∀ l, basic_render_result res funcDoc = some l →
        ((l.length = 5 ↔
          res.status = .pyBool false ∧ firstRemedy (res.doc.getD funcDoc) ≠ none) ∧
        (∀ r, res.status = .pyBool false →
          firstRemedy (res.doc.getD funcDoc) = some r →
          l.getLast? = some (Color.cyan "Remedy:" ++ " " ++ r)))) := by
  intro res funcDoc
  rcases res with ⟨m, info, doc⟩
  rcases m with b | _ | s | _ | n
  · cases b
    · rcases hr : firstRemedy (doc.getD funcDoc) with _ | r <;>
        simp [basic_render_result, json_render_result, hr]
    · simp [basic_render_result, json_render_result]
  · simp [basic_render_result, json_render_result]
  · by_cases hs : s = "" <;>
      simp [basic_render_result, json_render_result, hs]
  · simp [basic_render_result, json_render_result]
  · simp [basic_render_result, json_render_result]

theorem remedy_attached_iff_witness :
    json_render_result resRemedy "d" =
      some ⟨"DU-001: Check.", "FAILED", some "move shards", []⟩ ∧
    resRemedy.status = .pyBool false ∧
    (⟨"DU-001: Check.", "FAILED", some "move shards", []⟩ : JsonOut).remedy =
      some "move shards" := by
  have hout : json_render_result resRemedy "d" =
      some ⟨"DU-001: Check.", "FAILED", some "move shards", []⟩ := by decide
  have h := ((remedy_attached_iff resRemedy "d").1 _ hout).2 (by decide)
  exact ⟨hout, by decide, h.trans (by decide)⟩

end Healthcheck
